import Mathlib

/-!
Shallow embedding of the germination-statistics core of `src/app.py`.

The program normalizes a raw table of (day, count) pairs:
numeric coercion and NaN removal (modelled by taking the surviving rows
as rational pairs), a stable sort by the raw day value
(`sort_values("t(日数)", kind="mergesort")`), rounding both columns to
the nearest integer with the IEEE round-half-to-even rule used by
`pandas.Series.round`, and clamping the count at 0 (`clip(lower=0)`).
If the normalized table is empty or its count-sum is 0, a blocking
warning is shown and no metrics are computed; otherwise the metric
block of lines 139–160 runs.  All arithmetic there is numpy float64;
we model it over `ℚ`, with `WithTop ℚ` for quantities that the program
can set to the float `inf` (the explicit `np.inf` sentinel for the
uniformity coefficients, and IEEE positive-over-zero division for MGS).
-/

namespace Germ

/-- Round-half-to-even on rationals: the semantics of
`pandas.Series.round()` (numpy `rint`) used at lines 129–130 of
`src/app.py`. -/
def roundHalfEven (q : ℚ) : ℤ :=
  let f := ⌊q⌋
  let r := q - f
  if r < 1/2 then f
  else if 1/2 < r then f + 1
  else if f % 2 = 0 then f else f + 1

/-- Sort key used at line 125 of `src/app.py`: ascending raw day value. -/
def byDay (a b : ℚ × ℚ) : Prop := a.1 ≤ b.1

instance : DecidableRel byDay := fun a b => inferInstanceAs (Decidable (a.1 ≤ b.1))

instance : IsTotal (ℚ × ℚ) byDay := ⟨fun a b => le_total a.1 b.1⟩

instance : IsTrans (ℚ × ℚ) byDay := ⟨fun _ _ _ h h2 => le_trans h h2⟩

/-- Strict version of the sort key, used to show that the stable sort is
determined by the multiset of rows when the day values are distinct. -/
def byDayLT (a b : ℚ × ℚ) : Prop := a.1 < b.1

instance : IsAntisymm (ℚ × ℚ) byDayLT :=
  ⟨fun _ _ h h2 => absurd h2 (not_lt_of_lt h)⟩

/-- The stable ascending sort by day of line 125
(`df.sort_values("t(日数)", kind="mergesort")`).  A stable sort is
uniquely determined by its comparison key, so the stable insertion sort
coincides with the mergesort the program requests. -/
def sortByDay (raw : List (ℚ × ℚ)) : List (ℚ × ℚ) :=
  List.insertionSort byDay raw

/-- Lines 129–131 of `src/app.py`: round day and count to the nearest
integer (half to even), then clamp the count from below at 0. -/
def normalizeRow (p : ℚ × ℚ) : ℤ × ℤ :=
  (roundHalfEven p.1, max (roundHalfEven p.2) 0)

/-- The Input Normalizer, lines 124–131: stable sort by raw day, then
per-row rounding and count clamping. -/
def normalizeInput (raw : List (ℚ × ℚ)) : List (ℤ × ℤ) :=
  (sortByDay raw).map normalizeRow

/-- Value of `n.sum()` over the normalized counts (line 142), as the float value
`germinated`. -/
def sumN (l : List (ℤ × ℤ)) : ℚ :=
  (l.map fun p => (p.2 : ℚ)).sum

/-- Value of `(t * n).sum()` at lines 148 and 151: the Σ(day × count) shared by
MDG and MGS. -/
def sumTN (l : List (ℤ × ℤ)) : ℚ :=
  (l.map fun p => (p.1 : ℚ) * (p.2 : ℚ)).sum

/-- Value of `t.sum()` as used by `t.mean()` at line 158. -/
def sumT (l : List (ℤ × ℤ)) : ℚ :=
  (l.map fun p => (p.1 : ℚ)).sum

/-- Running sums with accumulator: the semantics of `np.cumsum` at
line 143. -/
def cumsumFrom (acc : ℚ) : List ℚ → List ℚ
  | [] => []
  | x :: xs => (acc + x) :: cumsumFrom (acc + x) xs

/-- Semantics of `np.cumsum(n)` (line 143). -/
def cumsum (l : List ℚ) : List ℚ := cumsumFrom 0 l

/-- Value `MDG = (t * n).sum() / germinated` (line 148). -/
def mdg (l : List (ℤ × ℤ)) : ℚ := sumTN l / sumN l

/-- Value `var_w = ((t - MDG) ** 2 * n).sum() / germinated` (line 154). -/
def varW (l : List (ℤ × ℤ)) : ℚ :=
  (l.map fun p => ((p.1 : ℚ) - mdg l) ^ 2 * (p.2 : ℚ)).sum / sumN l

/-- Value `mean_unw = t.mean()` (line 158). -/
def meanUnw (l : List (ℤ × ℤ)) : ℚ := sumT l / (l.length : ℚ)

/-- Value `var_unw = ((t - mean_unw) ** 2 * n).sum() / germinated` (line 159). -/
def varUnw (l : List (ℤ × ℤ)) : ℚ :=
  (l.map fun p => ((p.1 : ℚ) - meanUnw l) ^ 2 * (p.2 : ℚ)).sum / sumN l

/-- The ResultBundle: every quantity the metric block of lines 139–160
computes, plus the `germinated > N_total` advisory of lines 175–179.
`WithTop ℚ` values use `⊤` for the float `inf`. -/
structure ResultBundle where
  germinated : ℚ
  cum_counts : List ℚ
  cum_pct_series : List ℚ
  cum_germ_pct_final : ℚ
  MDG : ℚ
  MGS : WithTop ℚ
  var_w : ℚ
  UGC_weighted : WithTop ℚ
  mean_unw : ℚ
  var_unw : ℚ
  UGC_unweighted : WithTop ℚ
  advisory : Bool
  deriving DecidableEq, Repr

/-- The Germination Statistics Engine: the metric block of lines
139–160 of `src/app.py`, evaluated on an already-normalized table.

`MGS` is the bare division `germinated / (t * n).sum()` of line 151;
the source has no guard there, so when the denominator is 0 the numpy
float division of the positive `germinated` by 0.0 returns `inf`, which
the model renders as `⊤`.  `UGC_weighted` and `UGC_unweighted` carry the
program's explicit `np.inf if var == 0 else 1.0 / var` sentinel
(lines 155 and 160). -/
def engine (l : List (ℤ × ℤ)) (N : ℤ) : ResultBundle :=
  { germinated := sumN l
    cum_counts := cumsum (l.map fun p => (p.2 : ℚ))
    cum_pct_series := (cumsum (l.map fun p => (p.2 : ℚ))).map
      fun c => 100 * c / (N : ℚ)
    cum_germ_pct_final := 100 * sumN l / (N : ℚ)
    MDG := mdg l
    MGS := if sumTN l = 0 then ⊤ else ((sumN l / sumTN l : ℚ) : WithTop ℚ)
    var_w := varW l
    UGC_weighted := if varW l = 0 then ⊤ else ((1 / varW l : ℚ) : WithTop ℚ)
    mean_unw := meanUnw l
    var_unw := varUnw l
    UGC_unweighted := if varUnw l = 0 then ⊤ else ((1 / varUnw l : ℚ) : WithTop ℚ)
    advisory := decide ((N : ℚ) < sumN l) }

/-- The top-level flow of lines 136–160: after normalization, the guard
`df.empty or df["n"].sum() == 0` shows a blocking warning and computes
nothing (`none`); otherwise the Engine runs. -/
def runApp (raw : List (ℚ × ℚ)) (N : ℤ) : Option ResultBundle :=
  let l := normalizeInput raw
  if l = [] ∨ sumN l = 0 then none else some (engine l N)

/-- Projection of a ResultBundle onto its scalar fields, dropping the two
per-row series. -/
def scalarPart (b : ResultBundle) :
    ℚ × ℚ × ℚ × WithTop ℚ × ℚ × WithTop ℚ × ℚ × ℚ × WithTop ℚ × Bool :=
  (b.germinated, b.cum_germ_pct_final, b.MDG, b.MGS, b.var_w, b.UGC_weighted,
   b.mean_unw, b.var_unw, b.UGC_unweighted, b.advisory)

/-- The ObservationSet of the worked scenario in the spec: nine
observations over days 1 to 9 with N = 50. -/
def scenarioSet : List (ℤ × ℤ) :=
  [(1, 0), (2, 2), (3, 5), (4, 12), (5, 15), (6, 5), (7, 4), (8, 0), (9, 1)]

/-! ### Helper lemmas -/

theorem runApp_if (raw : List (ℚ × ℚ)) (N : ℤ) :
    runApp raw N =
      if normalizeInput raw = [] ∨ sumN (normalizeInput raw) = 0 then none
      else some (engine (normalizeInput raw) N) := rfl

theorem normalizeInput_perm {raw1 raw2 : List (ℚ × ℚ)} (h : raw1.Perm raw2) :
    (normalizeInput raw1).Perm (normalizeInput raw2) :=
  (((List.perm_insertionSort byDay raw1).trans h).trans
    (List.perm_insertionSort byDay raw2).symm).map normalizeRow

theorem sumN_perm {l1 l2 : List (ℤ × ℤ)} (h : l1.Perm l2) : sumN l1 = sumN l2 := by
  unfold sumN
  exact (h.map fun p => (p.2 : ℚ)).sum_eq

theorem sumTN_perm {l1 l2 : List (ℤ × ℤ)} (h : l1.Perm l2) : sumTN l1 = sumTN l2 := by
  unfold sumTN
  exact (h.map fun p => (p.1 : ℚ) * (p.2 : ℚ)).sum_eq

theorem sumT_perm {l1 l2 : List (ℤ × ℤ)} (h : l1.Perm l2) : sumT l1 = sumT l2 := by
  unfold sumT
  exact (h.map fun p => (p.1 : ℚ)).sum_eq

theorem mdg_perm {l1 l2 : List (ℤ × ℤ)} (h : l1.Perm l2) : mdg l1 = mdg l2 := by
  unfold mdg
  rw [sumN_perm h, sumTN_perm h]

theorem varW_perm {l1 l2 : List (ℤ × ℤ)} (h : l1.Perm l2) : varW l1 = varW l2 := by
  unfold varW
  rw [mdg_perm h, sumN_perm h,
    (h.map fun p => ((p.1 : ℚ) - mdg l2) ^ 2 * (p.2 : ℚ)).sum_eq]

theorem meanUnw_perm {l1 l2 : List (ℤ × ℤ)} (h : l1.Perm l2) :
    meanUnw l1 = meanUnw l2 := by
  unfold meanUnw
  rw [sumT_perm h, h.length_eq]

theorem varUnw_perm {l1 l2 : List (ℤ × ℤ)} (h : l1.Perm l2) :
    varUnw l1 = varUnw l2 := by
  unfold varUnw
  rw [meanUnw_perm h, sumN_perm h,
    (h.map fun p => ((p.1 : ℚ) - meanUnw l2) ^ 2 * (p.2 : ℚ)).sum_eq]

theorem engine_scalarPart_perm {l1 l2 : List (ℤ × ℤ)} (h : l1.Perm l2) (N : ℤ) :
    scalarPart (engine l1 N) = scalarPart (engine l2 N) := by
  simp only [scalarPart, engine, sumN_perm h, sumTN_perm h, mdg_perm h, varW_perm h,
    meanUnw_perm h, varUnw_perm h]

theorem sortByDay_sorted (raw : List (ℚ × ℚ)) :
    (sortByDay raw).Sorted byDay :=
  List.sorted_insertionSort byDay raw

theorem sortByDay_sorted_lt {raw : List (ℚ × ℚ)}
    (hnd : (raw.map Prod.fst).Nodup) : (sortByDay raw).Sorted byDayLT := by
  have hs : (sortByDay raw).Sorted byDay := sortByDay_sorted raw
  have hperm : ((sortByDay raw).map Prod.fst).Perm (raw.map Prod.fst) :=
    (List.perm_insertionSort byDay raw).map Prod.fst
  have hnd2 : ((sortByDay raw).map Prod.fst).Nodup := hperm.nodup_iff.2 hnd
  have hne : (sortByDay raw).Pairwise fun a b => a.1 ≠ b.1 :=
    (List.pairwise_map).1 hnd2
  exact (hs.and hne).imp fun hab => lt_of_le_of_ne hab.1 hab.2

theorem sortByDay_eq_of_perm {raw1 raw2 : List (ℚ × ℚ)} (hp : raw1.Perm raw2)
    (hnd : (raw1.map Prod.fst).Nodup) : sortByDay raw1 = sortByDay raw2 := by
  have hnd2 : (raw2.map Prod.fst).Nodup := ((hp.map Prod.fst).nodup_iff).1 hnd
  exact List.eq_of_perm_of_sorted
    (((List.perm_insertionSort byDay raw1).trans hp).trans
      (List.perm_insertionSort byDay raw2).symm)
    (sortByDay_sorted_lt hnd) (sortByDay_sorted_lt hnd2)

theorem normalizeInput_count_nonneg (raw : List (ℚ × ℚ)) :
    ∀ p ∈ normalizeInput raw, (0 : ℤ) ≤ p.2 := by
  intro p hp
  obtain ⟨q, _, rfl⟩ := List.mem_map.1 hp
  exact le_max_right _ _

theorem cumsumFrom_chain :
    ∀ (l : List ℚ) (acc : ℚ), (∀ x ∈ l, 0 ≤ x) →
      List.Chain' (· ≤ ·) (cumsumFrom acc l)
  | [], _, _ => List.chain'_nil
  | [x], acc, _ => List.chain'_singleton (acc + x)
  | x :: y :: t, acc, h => by
    have ih := cumsumFrom_chain (y :: t) (acc + x)
      (fun z hz => h z (List.mem_cons_of_mem _ hz))
    have hy : (0 : ℚ) ≤ y := h y (by simp)
    rw [show cumsumFrom acc (x :: y :: t) =
      (acc + x) :: (acc + x + y) :: cumsumFrom (acc + x + y) t from rfl]
    rw [show cumsumFrom (acc + x) (y :: t) =
      (acc + x + y) :: cumsumFrom (acc + x + y) t from rfl] at ih
    exact List.chain'_cons.2 ⟨by linarith, ih⟩

theorem cumsumFrom_getLast :
    ∀ (l : List ℚ) (acc : ℚ), l ≠ [] →
      (cumsumFrom acc l).getLast? = some (acc + l.sum)
  | [x], acc, _ => by simp [cumsumFrom]
  | x :: y :: t, acc, _ => by
    have ih := cumsumFrom_getLast (y :: t) (acc + x) (by simp)
    rw [show cumsumFrom (acc + x) (y :: t) =
      (acc + x + y) :: cumsumFrom (acc + x + y) t from rfl] at ih
    rw [show cumsumFrom acc (x :: y :: t) =
      (acc + x) :: (acc + x + y) :: cumsumFrom (acc + x + y) t from rfl]
    rw [List.getLast?_cons_cons, ih, List.sum_cons, List.sum_cons, List.sum_cons]
    rw [Option.some.injEq]
    ring

theorem sumTN_const_day :
    ∀ (l : List (ℤ × ℤ)) (d : ℤ), (∀ p ∈ l, p.1 = d) → sumTN l = d * sumN l
  | [], _, _ => by simp [sumTN, sumN]
  | p :: t, d, h => by
    have hp : p.1 = d := h p (List.mem_cons_self _ _)
    have ih := sumTN_const_day t d fun q hq => h q (List.mem_cons_of_mem _ hq)
    unfold sumTN sumN at ih ⊢
    rw [List.map_cons, List.map_cons, List.sum_cons, List.sum_cons, ih, hp]
    ring

/-! ### The claims -/

/-- Claim C1: on the ObservationSet
[(1,0),(2,2),(3,5),(4,12),(5,15),(6,5),(7,4),(8,0),(9,1)] with N = 50 the
Engine returns germinated = 44, final cumulative percentage 88.00,
MDG = 209/44, MGS = 44/209, weighted variance Σ((t − 209/44)² · n)/44
(which equals 3707/1936), and UGC_weighted its reciprocal 1936/3707. -/
theorem claim1_scenario :
    (engine scenarioSet 50).germinated = 44 ∧
    (engine scenarioSet 50).cum_germ_pct_final = 88 ∧
    (engine scenarioSet 50).MDG = 209 / 44 ∧
    (engine scenarioSet 50).MGS = ((44 / 209 : ℚ) : WithTop ℚ) ∧
    (engine scenarioSet 50).var_w =
      (scenarioSet.map fun p => ((p.1 : ℚ) - 209 / 44) ^ 2 * (p.2 : ℚ)).sum / 44 ∧
    (engine scenarioSet 50).var_w = 3707 / 1936 ∧
    (engine scenarioSet 50).UGC_weighted = ((1936 / 3707 : ℚ) : WithTop ℚ) := by
  norm_num [engine, mdg, sumN, sumTN, varW, scenarioSet]

/-- Claim C2: for every ObservationSet accepted by the Engine (obtained
from the Normalizer, hence with all counts clamped at 0), the cumulative
count series is non-decreasing and its last element is germinated. -/
theorem claim2_cumulative (raw : List (ℚ × ℚ)) (N : ℤ)
    (h : ¬(normalizeInput raw = [] ∨ sumN (normalizeInput raw) = 0)) :
    List.Chain' (· ≤ ·) (engine (normalizeInput raw) N).cum_counts ∧
    (engine (normalizeInput raw) N).cum_counts.getLast? =
      some (engine (normalizeInput raw) N).germinated := by
  push_neg at h
  obtain ⟨hne, -⟩ := h
  constructor
  · show List.Chain' (· ≤ ·) (cumsum ((normalizeInput raw).map fun p => (p.2 : ℚ)))
    apply cumsumFrom_chain
    intro x hx
    obtain ⟨p, hp, rfl⟩ := List.mem_map.1 hx
    exact_mod_cast normalizeInput_count_nonneg raw p hp
  · show (cumsum ((normalizeInput raw).map fun p => (p.2 : ℚ))).getLast? =
      some (sumN (normalizeInput raw))
    have hmne : (normalizeInput raw).map (fun p => (p.2 : ℚ)) ≠ [] := by
      simpa [List.map_eq_nil_iff] using hne
    rw [show cumsum ((normalizeInput raw).map fun p => (p.2 : ℚ)) =
      cumsumFrom 0 ((normalizeInput raw).map fun p => (p.2 : ℚ)) from rfl]
    rw [cumsumFrom_getLast _ 0 hmne, zero_add]
    rfl

/-- Witness for C2 at the raw table [(1, 2)]. -/
theorem claim2_witness :
    List.Chain' (· ≤ ·) (engine (normalizeInput [((1 : ℚ), (2 : ℚ))]) 50).cum_counts ∧
    (engine (normalizeInput [((1 : ℚ), (2 : ℚ))]) 50).cum_counts.getLast? =
      some (engine (normalizeInput [((1 : ℚ), (2 : ℚ))]) 50).germinated :=
  claim2_cumulative [((1 : ℚ), (2 : ℚ))] 50
    (by norm_num [normalizeInput, sortByDay, List.insertionSort, normalizeRow,
      roundHalfEven, sumN])

/-- Claim C3: whenever the count-sum is nonzero and MDG is nonzero, the
independently computed MGS is exactly the reciprocal of MDG. -/
theorem claim3_mgs_reciprocal (l : List (ℤ × ℤ)) (N : ℤ) (hg : sumN l ≠ 0)
    (hmdg : (engine l N).MDG ≠ 0) :
    (engine l N).MGS = ((1 / (engine l N).MDG : ℚ) : WithTop ℚ) := by
  have hstn : sumTN l ≠ 0 := by
    intro h0
    exact hmdg (by simp [engine, mdg, h0])
  simp [engine, mdg, hstn, one_div, inv_div]

/-- Witness for C3 at the ObservationSet [(2, 1)]. -/
theorem claim3_witness :
    (engine [((2 : ℤ), (1 : ℤ))] 50).MGS =
      ((1 / (engine [((2 : ℤ), (1 : ℤ))] 50).MDG : ℚ) : WithTop ℚ) :=
  claim3_mgs_reciprocal [((2 : ℤ), (1 : ℤ))] 50 (by norm_num [sumN])
    (by norm_num [engine, mdg, sumN, sumTN])

/-- Counterexample to claim C4: the raw tables [(1,2),(1,5)] and
[(1,5),(1,2)] are permutations of each other, yet the stable sort keeps
the tied day-1 rows in input order, so the cumulative-count series are
[2,7] and [5,7] and the ResultBundles differ. -/
theorem claim4_counterexample :
    [((1 : ℚ), (2 : ℚ)), ((1 : ℚ), (5 : ℚ))].Perm
      [((1 : ℚ), (5 : ℚ)), ((1 : ℚ), (2 : ℚ))] ∧
    runApp [((1 : ℚ), (2 : ℚ)), ((1 : ℚ), (5 : ℚ))] 50 ≠
      runApp [((1 : ℚ), (5 : ℚ)), ((1 : ℚ), (2 : ℚ))] 50 := by
  refine ⟨List.Perm.swap _ _ _, ?_⟩
  have e1 : normalizeInput [((1 : ℚ), (2 : ℚ)), ((1 : ℚ), (5 : ℚ))] = [(1, 2), (1, 5)] := by
    norm_num [normalizeInput, sortByDay, List.insertionSort, List.orderedInsert,
      normalizeRow, roundHalfEven, byDay]
  have e2 : normalizeInput [((1 : ℚ), (5 : ℚ)), ((1 : ℚ), (2 : ℚ))] = [(1, 5), (1, 2)] := by
    norm_num [normalizeInput, sortByDay, List.insertionSort, List.orderedInsert,
      normalizeRow, roundHalfEven, byDay]
  intro hEq
  rw [runApp_if, runApp_if, e1, e2,
    if_neg (by push_neg; exact ⟨by simp, by norm_num [sumN]⟩),
    if_neg (by push_neg; exact ⟨by simp, by norm_num [sumN]⟩)] at hEq
  have h2 := congrArg (fun o => Option.map ResultBundle.cum_counts o) hEq
  norm_num [engine, cumsum, cumsumFrom] at h2

/-- Claim C4 as amended: reordering the raw rows always leaves every
scalar of the ResultBundle unchanged, and leaves the whole ResultBundle
(including the two per-row cumulative series) unchanged provided no two
raw rows share the same day value. -/
theorem claim4_amended_perm (raw1 raw2 : List (ℚ × ℚ)) (N : ℤ)
    (hp : raw1.Perm raw2) :
    Option.map scalarPart (runApp raw1 N) = Option.map scalarPart (runApp raw2 N) ∧
    ((raw1.map Prod.fst).Nodup → runApp raw1 N = runApp raw2 N) := by
  have hperm := normalizeInput_perm hp
  have hnil : normalizeInput raw1 = [] ↔ normalizeInput raw2 = [] := by
    rw [← List.length_eq_zero, ← List.length_eq_zero, hperm.length_eq]
  have hguard : (normalizeInput raw1 = [] ∨ sumN (normalizeInput raw1) = 0) ↔
      (normalizeInput raw2 = [] ∨ sumN (normalizeInput raw2) = 0) := by
    rw [hnil, sumN_perm hperm]
  constructor
  · rw [runApp_if, runApp_if]
    by_cases hc : normalizeInput raw2 = [] ∨ sumN (normalizeInput raw2) = 0
    · rw [if_pos (hguard.2 hc), if_pos hc]
    · rw [if_neg fun h => hc (hguard.1 h), if_neg hc]
      simpa using engine_scalarPart_perm hperm N
  · intro hnd
    have heq : normalizeInput raw1 = normalizeInput raw2 := by
      unfold normalizeInput
      rw [sortByDay_eq_of_perm hp hnd]
    rw [runApp_if, runApp_if, heq]

/-- Witness for the amended C4 at the swapped tables [(1,2),(2,3)] and
[(2,3),(1,2)], whose day values are distinct. -/
theorem claim4_witness :
    Option.map scalarPart (runApp [((1 : ℚ), (2 : ℚ)), ((2 : ℚ), (3 : ℚ))] 50) =
      Option.map scalarPart (runApp [((2 : ℚ), (3 : ℚ)), ((1 : ℚ), (2 : ℚ))] 50) ∧
    runApp [((1 : ℚ), (2 : ℚ)), ((2 : ℚ), (3 : ℚ))] 50 =
      runApp [((2 : ℚ), (3 : ℚ)), ((1 : ℚ), (2 : ℚ))] 50 :=
  ⟨(claim4_amended_perm _ _ 50 (List.Perm.swap _ _ _)).1,
   (claim4_amended_perm _ _ 50 (List.Perm.swap _ _ _)).2 (by norm_num)⟩

/-- Claim C5: if every observation of an accepted ObservationSet has the
same day value d, the weighted variance is 0, UGC_weighted is the
infinity sentinel, and MDG equals d. -/
theorem claim5_same_day (l : List (ℤ × ℤ)) (N d : ℤ) (hd : ∀ p ∈ l, p.1 = d)
    (hg : sumN l ≠ 0) :
    (engine l N).var_w = 0 ∧ (engine l N).UGC_weighted = ⊤ ∧
    (engine l N).MDG = (d : ℚ) := by
  have hTN := sumTN_const_day l d hd
  have hMDG : mdg l = (d : ℚ) := by
    unfold mdg
    rw [hTN, mul_div_assoc, div_self hg, mul_one]
  have hvar : varW l = 0 := by
    unfold varW
    have hmap : (l.map fun p => ((p.1 : ℚ) - mdg l) ^ 2 * (p.2 : ℚ)) =
        l.map fun _ => (0 : ℚ) := by
      apply List.map_congr_left
      intro p hp
      rw [hMDG, hd p hp]
      ring
    rw [hmap]
    simp
  exact ⟨by simpa [engine] using hvar, by simp [engine, hvar], by simpa [engine] using hMDG⟩

/-- Witness for C5 at the ObservationSet [(3,2),(3,5)] with d = 3. -/
theorem claim5_witness :
    (engine [((3 : ℤ), (2 : ℤ)), ((3 : ℤ), (5 : ℤ))] 50).var_w = 0 ∧
    (engine [((3 : ℤ), (2 : ℤ)), ((3 : ℤ), (5 : ℤ))] 50).UGC_weighted = ⊤ ∧
    (engine [((3 : ℤ), (2 : ℤ)), ((3 : ℤ), (5 : ℤ))] 50).MDG = ((3 : ℤ) : ℚ) :=
  claim5_same_day [((3 : ℤ), (2 : ℤ)), ((3 : ℤ), (5 : ℤ))] 50 3 (by decide)
    (by norm_num [sumN])

/-- Claim C6: the computation yields nothing exactly when the normalized
table is empty or its count-sum is 0 (the blocking no-valid-data
advisory), and otherwise the Engine runs on the normalized table. -/
theorem claim6_empty_guard (raw : List (ℚ × ℚ)) (N : ℤ) :
    (runApp raw N = none ↔
      normalizeInput raw = [] ∨ sumN (normalizeInput raw) = 0) ∧
    (¬(normalizeInput raw = [] ∨ sumN (normalizeInput raw) = 0) →
      runApp raw N = some (engine (normalizeInput raw) N)) := by
  rw [runApp_if]
  by_cases hc : normalizeInput raw = [] ∨ sumN (normalizeInput raw) = 0 <;>
    simp [hc]

/-- Witness for C6: an all-zero-count table is rejected, a table with a
positive count reaches the Engine. -/
theorem claim6_witness :
    runApp [((1 : ℚ), (0 : ℚ))] 50 = none ∧
    runApp [((1 : ℚ), (2 : ℚ))] 50 =
      some (engine (normalizeInput [((1 : ℚ), (2 : ℚ))]) 50) :=
  ⟨(claim6_empty_guard [((1 : ℚ), (0 : ℚ))] 50).1.2
    (Or.inr (by norm_num [normalizeInput, sortByDay, List.insertionSort,
      normalizeRow, roundHalfEven, sumN])),
   (claim6_empty_guard [((1 : ℚ), (2 : ℚ))] 50).2
    (by push_neg
        refine ⟨?_, ?_⟩ <;>
          norm_num [normalizeInput, sortByDay, List.insertionSort,
            normalizeRow, roundHalfEven, sumN])⟩

/-- Claim C7: with N ≥ 1, when germinated exceeds N the ResultBundle is
still computed and returned, the advisory flag is raised, and the final
cumulative percentage is still 100 · germinated / N (so it can exceed
100). -/
theorem claim7_advisory (raw : List (ℚ × ℚ)) (N : ℤ) (hN : 1 ≤ N)
    (hg : (N : ℚ) < sumN (normalizeInput raw)) :
    runApp raw N = some (engine (normalizeInput raw) N) ∧
    (engine (normalizeInput raw) N).advisory = true ∧
    (engine (normalizeInput raw) N).cum_germ_pct_final =
      100 * sumN (normalizeInput raw) / (N : ℚ) := by
  have hNpos : (0 : ℚ) < (N : ℤ) := by exact_mod_cast hN
  have h0 : (0 : ℚ) < sumN (normalizeInput raw) := lt_trans hNpos hg
  have hne : normalizeInput raw ≠ [] := by
    intro hnil
    rw [hnil] at h0
    simp [sumN] at h0
  refine ⟨?_, ?_, rfl⟩
  · rw [runApp_if, if_neg (by push_neg; exact ⟨hne, ne_of_gt h0⟩)]
  · simpa [engine] using hg

/-- Witness for C7: the table [(1, 60)] with N = 50 gives final
percentage 120 with the advisory raised. -/
theorem claim7_witness :
    (runApp [((1 : ℚ), (60 : ℚ))] 50 =
      some (engine (normalizeInput [((1 : ℚ), (60 : ℚ))]) 50) ∧
     (engine (normalizeInput [((1 : ℚ), (60 : ℚ))]) 50).advisory = true ∧
     (engine (normalizeInput [((1 : ℚ), (60 : ℚ))]) 50).cum_germ_pct_final =
       100 * sumN (normalizeInput [((1 : ℚ), (60 : ℚ))]) / ((50 : ℤ) : ℚ)) ∧
    (engine (normalizeInput [((1 : ℚ), (60 : ℚ))]) 50).cum_germ_pct_final = 120 :=
  ⟨claim7_advisory [((1 : ℚ), (60 : ℚ))] 50 (by decide)
    (by norm_num [normalizeInput, sortByDay, List.insertionSort,
      normalizeRow, roundHalfEven, sumN]),
   by norm_num [engine, normalizeInput, sortByDay, List.insertionSort,
     normalizeRow, roundHalfEven, sumN]⟩

/-- Claim C8: every surviving raw row (t, n) appears in the normalized
table as (round t, max (round n) 0): day and count are rounded to the
nearest integer, then the count alone is clamped at 0; concretely, a raw
row (-2, -3.4) normalizes to (-2, 0) — the count -3.4 becomes 0, not -3,
while the negative day is left unclamped. -/
theorem claim8_round_clamp :
    (∀ (raw : List (ℚ × ℚ)) (t n : ℚ), (t, n) ∈ raw →
      (roundHalfEven t, max (roundHalfEven n) 0) ∈ normalizeInput raw) ∧
    normalizeInput [((-2 : ℚ), (-17 / 5 : ℚ))] = [(-2, 0)] := by
  constructor
  · intro raw t n hmem
    have hs : (t, n) ∈ sortByDay raw := by
      unfold sortByDay
      rw [List.mem_insertionSort]
      exact hmem
    exact List.mem_map_of_mem normalizeRow hs
  · norm_num [normalizeInput, sortByDay, List.insertionSort, normalizeRow,
      roundHalfEven]

/-- Witness for C8 at the raw row (1, -17/5). -/
theorem claim8_witness :
    (roundHalfEven 1, max (roundHalfEven (-17 / 5)) 0) ∈
      normalizeInput [((1 : ℚ), (-17 / 5 : ℚ))] :=
  claim8_round_clamp.1 [((1 : ℚ), (-17 / 5 : ℚ))] 1 (-17 / 5) (by simp)

/-- Claim C9: on a valid input in which every observation has day 0 and
the count-sum is nonzero, the denominator Σ(day × count) of the MGS
division at line 151 is 0 while the numerator germinated is nonzero;
the source has no guard there, so the numpy float division of the
positive numerator by 0.0 produces the IEEE infinity (modelled by ⊤)
rather than a value produced by an explicit sentinel branch like the
one the variance gets at line 155. -/
theorem claim9_mgs_unguarded (l : List (ℤ × ℤ)) (N : ℤ) (hd : ∀ p ∈ l, p.1 = 0)
    (hg : sumN l ≠ 0) :
    sumTN l = 0 ∧ (engine l N).germinated = sumN l ∧ (engine l N).MGS = ⊤ := by
  have hTN := sumTN_const_day l 0 hd
  have h0 : sumTN l = 0 := by
    rw [hTN]
    ring
  exact ⟨h0, rfl, by simp [engine, h0]⟩

/-- Witness for C9 at the ObservationSet [(0, 5)]. -/
theorem claim9_witness :
    sumTN [((0 : ℤ), (5 : ℤ))] = 0 ∧
    (engine [((0 : ℤ), (5 : ℤ))] 50).germinated = sumN [((0 : ℤ), (5 : ℤ))] ∧
    (engine [((0 : ℤ), (5 : ℤ))] 50).MGS = ⊤ :=
  claim9_mgs_unguarded [((0 : ℤ), (5 : ℤ))] 50 (by decide) (by norm_num [sumN])

/-- Claim C10: the Normalizer rounds exact halves to the nearest even
integer (banker's rounding, the numpy rint rule): raw counts 0.5, 1.5
and 2.5 normalize to 0, 2 and 2 respectively. -/
theorem claim10_half_even :
    normalizeInput [((1 : ℚ), (1 / 2 : ℚ)), ((2 : ℚ), (3 / 2 : ℚ)),
        ((3 : ℚ), (5 / 2 : ℚ))] = [(1, 0), (2, 2), (3, 2)] ∧
    roundHalfEven (1 / 2) = 0 ∧ roundHalfEven (3 / 2) = 2 ∧
    roundHalfEven (5 / 2) = 2 := by
  norm_num [normalizeInput, sortByDay, List.insertionSort, List.orderedInsert,
    normalizeRow, roundHalfEven, byDay]

end Germ
